import Mathlib

/-!
# Reduce_timestep (libcntr/cntr/cntr_mpitools_impl.hpp)

A shallow embedding of the four `Reduce_timestep` overloads of namespace `cntr`.

* Values of C++ type `int` are `Int`s; the arithmetic of line 44 is 32-bit two's
  complement, every operation reduced into the range of `int` by `int32`.
* Scalar components (the `double`s handed to the collective) are elements of a type `α`
  carrying `+` and `0`; theorems about sums take `α` to be a commutative additive monoid,
  concrete evaluations use `Int`.
* `assert` is modelled as enabled (no `NDEBUG`).
* One process executes its code up to the call of `MPI::COMM_WORLD.Reduce`, where it blocks
  with the arguments of the call and a continuation that receives the contents of its
  receive buffer after the collective (`Proc`).  `run` puts `N` processes together.
-/

namespace cntr

/-- Storage width `sizeof(double)` in bytes. -/
def sizeofDouble : Nat := 8

/-- Modelled from the spec: the class `herm_matrix_timestep<T>` is declared outside
`cntr_mpitools_impl.hpp`.  A time-slice has a step index, an imaginary-time order, the
matrix dimensions, and owns one buffer `data_` of scalar components. -/
structure herm_matrix_timestep (α : Type) where
  tstp : Int
  ntau : Int
  size1 : Int
  size2 : Int
  data_ : List α
deriving DecidableEq, Repr

/-- Modelled from the spec: the class `herm_matrix<T>` is declared outside
`cntr_mpitools_impl.hpp`.  A full-history object has a maximum step `nt`, an imaginary-time
order, the matrix dimensions, the time-slice data of the steps `0 .. nt` (entry `k` of
`steps` holds the scalar components of step `k`) and an imaginary-time-only segment. -/
structure herm_matrix (α : Type) where
  nt : Int
  ntau : Int
  size1 : Int
  size2 : Int
  steps : List (List α)
  mat : List α
deriving DecidableEq, Repr

/-- The value a 32-bit two's complement `int` holds when the exact result of an operation
is `x`: the representative of `x` modulo `2^32` in `-2^31 .. 2^31 - 1`. -/
def int32 (x : Int) : Int :=
  (x + 2147483648) % 4294967296 - 2147483648

/-- The element count of line 44,
`int len = 2 * (2 * (tstp + 1) + G.ntau() + 1) * G.size1() * G.size2();`
as a function of `tstp` and of the three dimensions read from `G`, every `int` operation
in the order the expression is evaluated. -/
def len (tstp ntau size1 size2 : Int) : Int :=
  int32 (int32 (int32 (2 * int32 (int32 (int32 (2 * int32 (tstp + 1)) + ntau) + 1))
    * size1) * size2)

/-- Modelled from the spec: the default constructor of `herm_matrix_timestep<T>` is not in
`cntr_mpitools_impl.hpp`.  A default-constructed slice owns no buffer. -/
def herm_matrix_timestep.default {α : Type} : herm_matrix_timestep α :=
  { tstp := 0, ntau := 0, size1 := 0, size2 := 0, data_ := [] }

/-- Modelled from the spec: `herm_matrix_timestep<T>::resize(nt, ntau, size1)` is not in
`cntr_mpitools_impl.hpp`.  It changes all four attributes (step `nt`, order `ntau`, a
`size1 x size1` matrix) and reallocates the buffer with the length the layout calculator
gives for them; the components of a freshly allocated buffer are zero. -/
def herm_matrix_timestep.resize {α : Type} [Zero α] (_self : herm_matrix_timestep α)
    (nt ntau size1 : Int) : herm_matrix_timestep α :=
  { tstp := nt, ntau := ntau, size1 := size1, size2 := size1,
    data_ := List.replicate (len nt ntau size1 size1).toNat 0 }

/-- Modelled from the spec: `herm_matrix<T>::get_timestep(tstp, timestep)` is not in
`cntr_mpitools_impl.hpp`.  It copies the scalar components of step `tstp` of the history
into the buffer of `timestep` (steps are addressed for `0 ≤ tstp`). -/
def herm_matrix.get_timestep {α : Type} (self : herm_matrix α) (tstp : Int)
    (timestep : herm_matrix_timestep α) : herm_matrix_timestep α :=
  if 0 ≤ tstp then { timestep with data_ := self.steps.getD tstp.toNat [] } else timestep

/-- Modelled from the spec: `herm_matrix<T>::set_timestep(tstp, timestep)` is not in
`cntr_mpitools_impl.hpp`.  It installs the contents of `timestep` as step `tstp` of the
history (steps are addressed for `0 ≤ tstp`). -/
def herm_matrix.set_timestep {α : Type} (self : herm_matrix α) (tstp : Int)
    (timestep : herm_matrix_timestep α) : herm_matrix α :=
  if 0 ≤ tstp then { self with steps := self.steps.set tstp.toNat timestep.data_ } else self

/-- The arguments of one call `MPI::COMM_WORLD.Reduce(sendbuf, recvbuf, count, MPI::DOUBLE,
MPI::SUM, root)`; `sendbuf = none` stands for `MPI::IN_PLACE`. -/
structure ReduceCall (α : Type) where
  sendbuf : Option (List α)
  recvbuf : List α
  count : Int
  root : Int
deriving DecidableEq, Repr

/-- What one process does in a call whose caller-visible objects have type `σ`:
* `assert_failed s`: an `assert` failed and the process aborted, the caller's objects being `s`;
* `exited s`: the process ran `exit(0)`, the caller's objects being `s`;
* `Reduce call k`: the process called the collective with the arguments `call`; when the
  collective completes and has left `buf` in its receive buffer, the call returns and the
  caller's objects are `k buf`. -/
inductive Proc (α σ : Type) where
  | assert_failed (s : σ) : Proc α σ
  | exited (s : σ) : Proc α σ
  | Reduce (call : ReduceCall α) (k : List α → σ) : Proc α σ

/-- The three ways a call can go, without the data. -/
inductive Outcome where
  | assert_failed : Outcome
  | exited : Outcome
  | Reduce : Outcome
deriving DecidableEq, Repr

/-- The way a call went. -/
def Proc.outcome {α σ : Type} : Proc α σ → Outcome
  | .assert_failed _ => .assert_failed
  | .exited _ => .exited
  | .Reduce _ _ => .Reduce

/-- The arguments handed to the collective, when the process reached it. -/
def Proc.call? {α σ : Type} : Proc α σ → Option (ReduceCall α)
  | .Reduce call _ => some call
  | _ => none

/-- The element count handed to the collective, when the process reached it. -/
def Proc.count? {α σ : Type} (p : Proc α σ) : Option Int :=
  p.call?.map ReduceCall.count

/-- The caller's objects when the process leaves the call: after the collective, which wrote
`buf` into the receive buffer of the root and left the receive buffer of every other rank
as it was, or at the point where the process aborted or exited. -/
def Proc.finish {α σ : Type} (isRoot : Bool) (buf : List α) : Proc α σ → σ
  | .assert_failed s => s
  | .exited s => s
  | .Reduce call k => k (if isRoot then buf else call.recvbuf)

/-- A nested call seen from its caller: where the callee aborts or exits, the caller's
objects are `s`; where the callee returns with `t`, the caller goes on to `f t`. -/
def Proc.andThen {α σ τ : Type} (p : Proc α σ) (s : τ) (f : σ → τ) : Proc α τ :=
  match p with
  | .assert_failed _ => .assert_failed s
  | .exited _ => .exited s
  | .Reduce call k => .Reduce call (fun buf => f (k buf))

/-- Lines 32-61, `Reduce_timestep(int tstp, int root, herm_matrix_timestep<T> &Gred,
herm_matrix_timestep<T> G)`, run by the process of rank `taskid` for a scalar type of
`sizeofT` bytes.  The caller's objects are the destination `Gred` (a reference) and the
source `G` (copied into the parameter). -/
def Reduce_timestep {α : Type} (sizeofT : Nat) (taskid tstp root : Int)
    (Gred G : herm_matrix_timestep α) :
    Proc α (herm_matrix_timestep α × herm_matrix_timestep α) :=
  if ¬ (tstp = G.tstp) then .assert_failed (Gred, G)
  else if taskid = root ∧
      ¬ (tstp = Gred.tstp ∧ G.ntau = Gred.ntau ∧ G.size1 = Gred.size1 ∧ G.size2 = Gred.size2)
    then .assert_failed (Gred, G)
  else
    let len := len tstp G.ntau G.size1 G.size2
    if sizeofT = sizeofDouble then
      if taskid = root then
        .Reduce { sendbuf := none, recvbuf := Gred.data_, count := len, root := root }
          (fun buf => ({ Gred with data_ := buf }, G))
      else
        .Reduce { sendbuf := some G.data_, recvbuf := Gred.data_, count := len, root := root }
          (fun buf => ({ Gred with data_ := buf }, G))
    else .exited (Gred, G)

/-- Lines 85-106, `Reduce_timestep(int tstp, int root, herm_matrix<T> &Gred,
herm_matrix_timestep<T> G)`: slice source, full-history destination. -/
def Reduce_timestep_hm_ts {α : Type} [Zero α] (sizeofT : Nat) (taskid tstp root : Int)
    (Gred : herm_matrix α) (G : herm_matrix_timestep α) :
    Proc α (herm_matrix α × herm_matrix_timestep α) :=
  if ¬ (tstp = G.tstp) then .assert_failed (Gred, G)
  else if taskid = root ∧
      ¬ (tstp ≤ Gred.nt ∧ G.ntau = Gred.ntau ∧ G.size1 = Gred.size1 ∧ G.size2 = Gred.size2)
    then .assert_failed (Gred, G)
  else
    let Gtemp : herm_matrix_timestep α :=
      if taskid = root then herm_matrix_timestep.default.resize tstp G.ntau G.size1
      else herm_matrix_timestep.default
    (Reduce_timestep sizeofT taskid tstp root Gtemp G).andThen (Gred, G)
      (fun t => (if taskid = root then Gred.set_timestep tstp t.1 else Gred, G))

/-- Lines 130-147, `Reduce_timestep(int tstp, int root, herm_matrix_timestep<T> &Gred,
herm_matrix<T> G)`: full-history source, slice destination. -/
def Reduce_timestep_ts_hm {α : Type} [Zero α] (sizeofT : Nat) (taskid tstp root : Int)
    (Gred : herm_matrix_timestep α) (G : herm_matrix α) :
    Proc α (herm_matrix_timestep α × herm_matrix α) :=
  if ¬ (tstp ≤ G.nt) then .assert_failed (Gred, G)
  else if taskid = root ∧
      ¬ (tstp = Gred.tstp ∧ G.ntau = Gred.ntau ∧ G.size1 = Gred.size1 ∧ G.size2 = Gred.size2)
    then .assert_failed (Gred, G)
  else
    let Gtemp : herm_matrix_timestep α :=
      G.get_timestep tstp (herm_matrix_timestep.default.resize tstp G.ntau G.size1)
    (Reduce_timestep sizeofT taskid tstp root Gred Gtemp).andThen (Gred, G)
      (fun t => (t.1, G))

/-- Lines 172-196, `Reduce_timestep(int tstp, int root, herm_matrix<T> &Gred,
herm_matrix<T> G)`: full-history source, full-history destination.  `G_tmp` is resized and
handed to the slice reducer as it is: the source has no `G.get_timestep(tstp, G_tmp)`. -/
def Reduce_timestep_hm_hm {α : Type} [Zero α] (sizeofT : Nat) (taskid tstp root : Int)
    (Gred G : herm_matrix α) : Proc α (herm_matrix α × herm_matrix α) :=
  if ¬ (tstp ≤ G.nt) then .assert_failed (Gred, G)
  else if taskid = root ∧
      ¬ (tstp ≤ Gred.nt ∧ G.ntau = Gred.ntau ∧ G.size1 = Gred.size1 ∧ G.size2 = Gred.size2)
    then .assert_failed (Gred, G)
  else
    let Gred_tmp : herm_matrix_timestep α :=
      if taskid = root then herm_matrix_timestep.default.resize tstp G.ntau G.size1
      else herm_matrix_timestep.default
    let G_tmp : herm_matrix_timestep α :=
      herm_matrix_timestep.default.resize tstp G.ntau G.size1
    (Reduce_timestep sizeofT taskid tstp root Gred_tmp G_tmp).andThen (Gred, G)
      (fun t => (if taskid = root then Gred.set_timestep tstp t.1 else Gred, G))

/-- The buffer a call contributes to the sum: its send buffer, or with `MPI::IN_PLACE` its
receive buffer. -/
def contribution {α : Type} (c : ReduceCall α) : List α :=
  match c.sendbuf with
  | some s => s
  | none => c.recvbuf

/-- The sum collective over the calls of the ranks `0 .. calls.length - 1`, as the contents
of the receive buffer of rank `root` afterwards: component `i < count` is the sum of
component `i` of the contributions of all ranks, the components from `count` on are kept.
The collective is defined (`some`) when `root` is a rank, every rank names this root and
the count of the root, and every contribution has `count` components. -/
def MPI_Reduce_SUM {α : Type} [Add α] [Zero α] (root : Nat) (calls : List (ReduceCall α)) :
    Option (List α) :=
  match calls[root]? with
  | none => none
  | some rc =>
    if 0 ≤ rc.count ∧ calls.all (fun c => decide (c.count = rc.count ∧ c.root = (root : Int) ∧
        rc.count.toNat ≤ (contribution c).length)) = true then
      some ((List.range rc.count.toNat).map
          (fun i => (calls.map (fun c => (contribution c).getD i 0)).sum)
        ++ rc.recvbuf.drop rc.count.toNat)
    else none

/-- The calls of a list of processes, when every one of them reached the collective. -/
def collect {α σ : Type} : List (Proc α σ) → Option (List (ReduceCall α))
  | [] => some []
  | p :: ps =>
    match p.call?, collect ps with
    | some c, some cs => some (c :: cs)
    | _, _ => none

/-- A group of `N` processes in which rank `r` executes `p r`.  When every process reaches
the collective and the collective is defined, the run completes and the result lists the
caller's objects of every rank after the call.  Otherwise (a process aborted or exited
before the collective, or the calls do not match) the run does not complete. -/
def run {α σ : Type} [Add α] [Zero α] (N root : Nat) (p : Nat → Proc α σ) :
    Option (List σ) :=
  match collect ((List.range N).map p) with
  | none => none
  | some calls =>
    match MPI_Reduce_SUM root calls with
    | none => none
    | some buf => some ((List.range N).map (fun r => (p r).finish (decide (r = root)) buf))

/-- The destination object of rank `root` after a run, when the run completed. -/
def root_result {D S : Type} (root : Nat) (o : Option (List (D × S))) : Option D :=
  match o with
  | none => none
  | some finals => (finals[root]?).map Prod.fst

/-- A time-slice of the given step and dimensions whose buffer, of the length the layout
calculator gives, is filled with the constant `c`. -/
def herm_matrix_timestep.filled {α : Type} (tstp ntau size1 size2 : Int) (c : α) :
    herm_matrix_timestep α :=
  { tstp := tstp, ntau := ntau, size1 := size1, size2 := size2,
    data_ := List.replicate (len tstp ntau size1 size2).toNat c }

/-- A full-history object of the given dimensions in which every component of every step
`0 .. nt` is the constant `c`. -/
def herm_matrix.filled {α : Type} (nt ntau size1 size2 : Int) (c : α) : herm_matrix α :=
  { nt := nt, ntau := ntau, size1 := size1, size2 := size2,
    steps := (List.range (nt + 1).toNat).map
      (fun k => List.replicate (len (k : Int) ntau size1 size2).toNat c),
    mat := [] }

/-- The manual procedure the history-to-history form is compared with, after the words of
the spec: every process extracts the step-`tstp` slice from its local source history with
`get_timestep`, the slice-to-slice `Reduce_timestep` runs on those slices, root using a
freshly allocated destination slice, and root installs its result with `set_timestep` at
step `tstp`. -/
def Reduce_timestep_by_slices {α : Type} [Zero α] (sizeofT : Nat) (taskid tstp root : Int)
    (Gred G : herm_matrix α) : Proc α (herm_matrix α × herm_matrix α) :=
  let slice : herm_matrix_timestep α :=
    G.get_timestep tstp (herm_matrix_timestep.default.resize tstp G.ntau G.size1)
  let dest : herm_matrix_timestep α :=
    if taskid = root then herm_matrix_timestep.default.resize tstp G.ntau G.size1
    else herm_matrix_timestep.default
  (Reduce_timestep sizeofT taskid tstp root dest slice).andThen (Gred, G)
    (fun t => (if taskid = root then Gred.set_timestep tstp t.1 else Gred, G))

/-! ## The element count -/

theorem int32_modEq (x : Int) : int32 x ≡ x [ZMOD 4294967296] := by
  unfold int32 Int.ModEq
  omega

theorem int32_congr {x y : Int} (h : x ≡ y [ZMOD 4294967296]) : int32 x = int32 y := by
  unfold Int.ModEq at h
  unfold int32
  omega

theorem int32_of_fits (x : Int) (hlo : -2147483648 ≤ x) (hhi : x ≤ 2147483647) :
    int32 x = x := by
  unfold int32
  omega

theorem len_eq_int32 (tstp ntau size1 size2 : Int) :
    len tstp ntau size1 size2 = int32 (2 * (2 * (tstp + 1) + ntau + 1) * size1 * size2) := by
  unfold len
  apply int32_congr
  have h1 : int32 (2 * int32 (tstp + 1)) ≡ 2 * (tstp + 1) [ZMOD 4294967296] :=
    (int32_modEq _).trans (Int.ModEq.mul_left 2 (int32_modEq _))
  have h2 : int32 (int32 (2 * int32 (tstp + 1)) + ntau) ≡ 2 * (tstp + 1) + ntau
      [ZMOD 4294967296] :=
    (int32_modEq _).trans (Int.ModEq.add_right ntau h1)
  have h3 : int32 (int32 (int32 (2 * int32 (tstp + 1)) + ntau) + 1)
      ≡ 2 * (tstp + 1) + ntau + 1 [ZMOD 4294967296] :=
    (int32_modEq _).trans (Int.ModEq.add_right 1 h2)
  have h4 : int32 (2 * int32 (int32 (int32 (2 * int32 (tstp + 1)) + ntau) + 1))
      ≡ 2 * (2 * (tstp + 1) + ntau + 1) [ZMOD 4294967296] :=
    (int32_modEq _).trans (Int.ModEq.mul_left 2 h3)
  have h5 : int32 (int32 (2 * int32 (int32 (int32 (2 * int32 (tstp + 1)) + ntau) + 1)) * size1)
      ≡ 2 * (2 * (tstp + 1) + ntau + 1) * size1 [ZMOD 4294967296] :=
    (int32_modEq _).trans (Int.ModEq.mul_right size1 h4)
  exact Int.ModEq.mul_right size2 h5

theorem len_of_fits (tstp ntau size1 size2 : Int)
    (hlo : -2147483648 ≤ 2 * (2 * (tstp + 1) + ntau + 1) * size1 * size2)
    (hhi : 2 * (2 * (tstp + 1) + ntau + 1) * size1 * size2 ≤ 2147483647) :
    len tstp ntau size1 size2 = 2 * (2 * (tstp + 1) + ntau + 1) * size1 * size2 := by
  rw [len_eq_int32, int32_of_fits _ hlo hhi]

/-- C2: a call of the slice-to-slice `Reduce_timestep` whose assertions hold, for a scalar
of the width of `double`, reaches the collective on every rank with an element count taken
from `tstp` and the dimensions of the source slice `G` only: the `int` value of
`2 * (2*(tstp+1) + ntau + 1) * size1 * size2`, which is that product itself where the
product fits the type `int`; with `tstp = 2`, `ntau = 3`, `size1 = size2 = 2` the count
is 80. -/
theorem Reduce_timestep_count {α : Type} (taskid tstp root : Int)
    (Gred G : herm_matrix_timestep α)
    (hG : tstp = G.tstp)
    (hroot : taskid = root →
      tstp = Gred.tstp ∧ G.ntau = Gred.ntau ∧ G.size1 = Gred.size1 ∧ G.size2 = Gred.size2) :
    (Reduce_timestep sizeofDouble taskid tstp root Gred G).count?
        = some (int32 (2 * (2 * (tstp + 1) + G.ntau + 1) * G.size1 * G.size2))
      ∧ (-2147483648 ≤ 2 * (2 * (tstp + 1) + G.ntau + 1) * G.size1 * G.size2 →
          2 * (2 * (tstp + 1) + G.ntau + 1) * G.size1 * G.size2 ≤ 2147483647 →
          (Reduce_timestep sizeofDouble taskid tstp root Gred G).count?
            = some (2 * (2 * (tstp + 1) + G.ntau + 1) * G.size1 * G.size2))
      ∧ (tstp = 2 → G.ntau = 3 → G.size1 = 2 → G.size2 = 2 →
          (Reduce_timestep sizeofDouble taskid tstp root Gred G).count? = some 80) := by
  have hcount : (Reduce_timestep sizeofDouble taskid tstp root Gred G).count?
      = some (len tstp G.ntau G.size1 G.size2) := by
    unfold Reduce_timestep
    rw [if_neg (not_not.mpr hG)]
    by_cases ht : taskid = root
    · rw [if_neg (fun h => h.2 (hroot ht))]
      simp [ht, Proc.count?, Proc.call?]
    · rw [if_neg (fun h => ht h.1)]
      simp [ht, Proc.count?, Proc.call?]
  refine ⟨?_, ?_, ?_⟩
  · rw [hcount, len_eq_int32]
  · intro hlo hhi
    rw [hcount, len_of_fits _ _ _ _ hlo hhi]
  · intro h2 h3 h4 h5
    rw [hcount, h2, h3, h4, h5]
    decide

/-- C7 fails as stated: the inputs `(0, 0, 32768, 1)` are valid and the count is 196608;
raising `size2` to 32768 takes the product `6 * 2^30` out of the range of `int` and the
count falls to `-2147483648`. -/
theorem len_falls_out_of_range :
    ((0 : Int) ≤ 0 ∧ (1 : Int) ≤ 32768 ∧ (1 : Int) ≤ 1 ∧ (1 : Int) ≤ 32768)
      ∧ len 0 0 32768 1 = 196608
      ∧ len 0 0 32768 32768 = -2147483648
      ∧ ¬ (len 0 0 32768 1 ≤ len 0 0 32768 32768) := by
  decide

/-- C7, amended: for valid inputs (`tstp ≥ 0`, `ntau ≥ 0`, `size1 ≥ 1`, `size2 ≥ 1`) the
length formula of the reducer is symmetric in `(size1, size2)`, and raising any one of the
four inputs, the others fixed, does not lower it as long as the product
`2 * (2*(tstp+1) + ntau + 1) * size1 * size2` at the raised input fits the type `int`. -/
theorem len_symm_mono_in_range (tstp ntau size1 size2 : Int)
    (ht : 0 ≤ tstp) (hn : 0 ≤ ntau) (h1 : 1 ≤ size1) (h2 : 1 ≤ size2) :
    len tstp ntau size1 size2 = len tstp ntau size2 size1
      ∧ (∀ tstp', tstp ≤ tstp' →
          2 * (2 * (tstp' + 1) + ntau + 1) * size1 * size2 ≤ 2147483647 →
          len tstp ntau size1 size2 ≤ len tstp' ntau size1 size2)
      ∧ (∀ ntau', ntau ≤ ntau' →
          2 * (2 * (tstp + 1) + ntau' + 1) * size1 * size2 ≤ 2147483647 →
          len tstp ntau size1 size2 ≤ len tstp ntau' size1 size2)
      ∧ (∀ size1', size1 ≤ size1' →
          2 * (2 * (tstp + 1) + ntau + 1) * size1' * size2 ≤ 2147483647 →
          len tstp ntau size1 size2 ≤ len tstp ntau size1' size2)
      ∧ (∀ size2', size2 ≤ size2' →
          2 * (2 * (tstp + 1) + ntau + 1) * size1 * size2' ≤ 2147483647 →
          len tstp ntau size1 size2 ≤ len tstp ntau size1 size2') := by
  have hs1 : 0 ≤ size1 := by omega
  have hs2 : 0 ≤ size2 := by omega
  have hX : 0 ≤ 2 * (2 * (tstp + 1) + ntau + 1) := by omega
  have hP : 0 ≤ 2 * (2 * (tstp + 1) + ntau + 1) * size1 * size2 :=
    mul_nonneg (mul_nonneg hX hs1) hs2
  -- the exact product is monotone, and a product below one that fits also fits
  have key : ∀ t' n' a' b' : Int,
      2 * (2 * (tstp + 1) + ntau + 1) * size1 * size2 ≤ 2 * (2 * (t' + 1) + n' + 1) * a' * b' →
      2 * (2 * (t' + 1) + n' + 1) * a' * b' ≤ 2147483647 →
      len tstp ntau size1 size2 ≤ len t' n' a' b' := by
    intro t' n' a' b' hle hfit
    rw [len_of_fits tstp ntau size1 size2 (by omega) (by omega),
      len_of_fits t' n' a' b' (by omega) hfit]
    exact hle
  refine ⟨?_, ?_, ?_, ?_, ?_⟩
  · rw [len_eq_int32, len_eq_int32]
    congr 1
    ring
  · intro tstp' h hfit
    have hle : 2 * (2 * (tstp + 1) + ntau + 1) ≤ 2 * (2 * (tstp' + 1) + ntau + 1) := by omega
    exact key tstp' ntau size1 size2
      (mul_le_mul_of_nonneg_right (mul_le_mul_of_nonneg_right hle hs1) hs2) hfit
  · intro ntau' h hfit
    have hle : 2 * (2 * (tstp + 1) + ntau + 1) ≤ 2 * (2 * (tstp + 1) + ntau' + 1) := by omega
    exact key tstp ntau' size1 size2
      (mul_le_mul_of_nonneg_right (mul_le_mul_of_nonneg_right hle hs1) hs2) hfit
  · intro size1' h hfit
    exact key tstp ntau size1' size2
      (mul_le_mul_of_nonneg_right (mul_le_mul_of_nonneg_left h hX) hs2) hfit
  · intro size2' h hfit
    exact key tstp ntau size1 size2'
      (mul_le_mul_of_nonneg_left h (mul_nonneg hX hs1)) hfit

/-! ## Assertions and the width check -/

theorem Reduce_timestep_eq_assert {α : Type} (sizeofT : Nat) (taskid tstp root : Int)
    (Gred G : herm_matrix_timestep α)
    (h : ¬ (tstp = G.tstp) ∨ (taskid = root ∧ ¬ (tstp = Gred.tstp ∧ G.ntau = Gred.ntau ∧
      G.size1 = Gred.size1 ∧ G.size2 = Gred.size2))) :
    Reduce_timestep sizeofT taskid tstp root Gred G = Proc.assert_failed (Gred, G) := by
  unfold Reduce_timestep
  by_cases hG : tstp = G.tstp
  · rcases h with h | h
    · exact (h hG).elim
    · rw [if_neg (not_not.mpr hG), if_pos h]
  · rw [if_pos hG]

theorem Reduce_timestep_eq_ok {α : Type} (sizeofT : Nat) (taskid tstp root : Int)
    (Gred G : herm_matrix_timestep α) (hG : tstp = G.tstp)
    (hroot : taskid = root → (tstp = Gred.tstp ∧ G.ntau = Gred.ntau ∧
      G.size1 = Gred.size1 ∧ G.size2 = Gred.size2)) :
    Reduce_timestep sizeofT taskid tstp root Gred G =
      if sizeofT = sizeofDouble then
        Proc.Reduce
          { sendbuf := if taskid = root then none else some G.data_, recvbuf := Gred.data_,
            count := len tstp G.ntau G.size1 G.size2, root := root }
          (fun buf => ({ Gred with data_ := buf }, G))
      else Proc.exited (Gred, G) := by
  unfold Reduce_timestep
  rw [if_neg (not_not.mpr hG), if_neg (fun h => h.2 (hroot h.1))]
  by_cases hw : sizeofT = sizeofDouble
  · rw [if_pos hw, if_pos hw]
    by_cases ht : taskid = root
    · rw [if_pos ht, if_pos ht]
    · rw [if_neg ht, if_neg ht]
  · rw [if_neg hw, if_neg hw]

theorem Reduce_timestep_outcome_ok {α : Type} (sizeofT : Nat) (taskid tstp root : Int)
    (Gred G : herm_matrix_timestep α) (hG : tstp = G.tstp)
    (hroot : taskid = root → (tstp = Gred.tstp ∧ G.ntau = Gred.ntau ∧
      G.size1 = Gred.size1 ∧ G.size2 = Gred.size2)) :
    (Reduce_timestep sizeofT taskid tstp root Gred G).outcome ≠ Outcome.assert_failed := by
  rw [Reduce_timestep_eq_ok sizeofT taskid tstp root Gred G hG hroot]
  by_cases hw : sizeofT = sizeofDouble
  · rw [if_pos hw]
    intro h
    cases h
  · rw [if_neg hw]
    intro h
    cases h

/-- C3: on every process the slice-to-slice `Reduce_timestep` fails with an assertion
exactly when `G.tstp != tstp`, or the process is root and `Gred` differs from `tstp` in its
step or from `G` in `ntau`, `size1` or `size2`; the process then aborts with the caller's
objects as they were and does not reach the collective. -/
theorem Reduce_timestep_assert_iff {α : Type} (sizeofT : Nat) (taskid tstp root : Int)
    (Gred G : herm_matrix_timestep α) :
    ((Reduce_timestep sizeofT taskid tstp root Gred G).outcome = Outcome.assert_failed ↔
        (G.tstp ≠ tstp ∨ (taskid = root ∧ (Gred.tstp ≠ tstp ∨ Gred.ntau ≠ G.ntau ∨
          Gred.size1 ≠ G.size1 ∨ Gred.size2 ≠ G.size2))))
      ∧ (Reduce_timestep sizeofT taskid tstp root Gred G = Proc.assert_failed (Gred, G) ↔
        (G.tstp ≠ tstp ∨ (taskid = root ∧ (Gred.tstp ≠ tstp ∨ Gred.ntau ≠ G.ntau ∨
          Gred.size1 ≠ G.size1 ∨ Gred.size2 ≠ G.size2))))
      ∧ ((G.tstp ≠ tstp ∨ (taskid = root ∧ (Gred.tstp ≠ tstp ∨ Gred.ntau ≠ G.ntau ∨
          Gred.size1 ≠ G.size1 ∨ Gred.size2 ≠ G.size2))) →
        (Reduce_timestep sizeofT taskid tstp root Gred G).call? = none) := by
  by_cases hc : G.tstp ≠ tstp ∨ (taskid = root ∧ (Gred.tstp ≠ tstp ∨ Gred.ntau ≠ G.ntau ∨
      Gred.size1 ≠ G.size1 ∨ Gred.size2 ≠ G.size2))
  · have hbad : ¬ (tstp = G.tstp) ∨ (taskid = root ∧ ¬ (tstp = Gred.tstp ∧
        G.ntau = Gred.ntau ∧ G.size1 = Gred.size1 ∧ G.size2 = Gred.size2)) := by
      rcases hc with h | ⟨ht, h⟩
      · exact Or.inl (fun e => h e.symm)
      · refine Or.inr ⟨ht, ?_⟩
        rintro ⟨e0, e1, e2, e3⟩
        rcases h with h | h | h | h
        · exact h e0.symm
        · exact h e1.symm
        · exact h e2.symm
        · exact h e3.symm
    have hval := Reduce_timestep_eq_assert sizeofT taskid tstp root Gred G hbad
    refine ⟨⟨fun _ => hc, fun _ => ?_⟩, ⟨fun _ => hc, fun _ => hval⟩, fun _ => ?_⟩
    · rw [hval]
      rfl
    · rw [hval]
      rfl
  · have hG : tstp = G.tstp := by
      by_contra h
      exact hc (Or.inl (fun e => h e.symm))
    have hroot : taskid = root → (tstp = Gred.tstp ∧ G.ntau = Gred.ntau ∧
        G.size1 = Gred.size1 ∧ G.size2 = Gred.size2) := by
      intro ht
      by_contra h
      apply hc
      refine Or.inr ⟨ht, ?_⟩
      by_contra hcon
      push_neg at hcon
      exact h ⟨hcon.1.symm, hcon.2.1.symm, hcon.2.2.1.symm, hcon.2.2.2.symm⟩
    have hout := Reduce_timestep_outcome_ok sizeofT taskid tstp root Gred G hG hroot
    refine ⟨⟨fun h => (hout h).elim, fun h => (hc h).elim⟩, ⟨fun h => ?_, fun h => (hc h).elim⟩,
      fun h => (hc h).elim⟩
    exfalso
    apply hout
    rw [h]
    rfl

/-- Witness of C3 on a root whose destination has another `size2` than the source. -/
theorem Reduce_timestep_assert_iff_witness :
    Reduce_timestep sizeofDouble 0 0 0
        (herm_matrix_timestep.filled 0 0 1 2 (0 : Int)) (herm_matrix_timestep.filled 0 0 1 1 1)
      = Proc.assert_failed
        (herm_matrix_timestep.filled 0 0 1 2 0, herm_matrix_timestep.filled 0 0 1 1 1) :=
  (Reduce_timestep_assert_iff sizeofDouble 0 0 0 _ _).2.1.mpr (by decide)

theorem Reduce_timestep_width {α : Type} (sizeofT : Nat) (hw : sizeofT ≠ sizeofDouble)
    (taskid tstp root : Int) (Gred G : herm_matrix_timestep α) :
    Reduce_timestep sizeofT taskid tstp root Gred G = Proc.assert_failed (Gred, G)
      ∨ Reduce_timestep sizeofT taskid tstp root Gred G = Proc.exited (Gred, G) := by
  by_cases hbad : ¬ (tstp = G.tstp) ∨ (taskid = root ∧ ¬ (tstp = Gred.tstp ∧
      G.ntau = Gred.ntau ∧ G.size1 = Gred.size1 ∧ G.size2 = Gred.size2))
  · exact Or.inl (Reduce_timestep_eq_assert sizeofT taskid tstp root Gred G hbad)
  · right
    have hG : tstp = G.tstp := by
      by_contra h
      exact hbad (Or.inl h)
    have hroot : taskid = root → (tstp = Gred.tstp ∧ G.ntau = Gred.ntau ∧
        G.size1 = Gred.size1 ∧ G.size2 = Gred.size2) := by
      intro ht
      by_contra h
      exact hbad (Or.inr ⟨ht, h⟩)
    rw [Reduce_timestep_eq_ok sizeofT taskid tstp root Gred G hG hroot, if_neg hw]

theorem andThen_width {α σ τ : Type} (p : Proc α σ) (a b : σ) (s : τ) (f : σ → τ)
    (hp : p = Proc.assert_failed a ∨ p = Proc.exited b)
    (h : (p.andThen s f).outcome ≠ Outcome.assert_failed) :
    p.andThen s f = Proc.exited s := by
  rcases hp with hp | hp
  · rw [hp] at h
    exact (h rfl).elim
  · rw [hp]
    rfl

theorem Reduce_timestep_hm_ts_eq_assert {α : Type} [Zero α] (sizeofT : Nat)
    (taskid tstp root : Int) (Gred : herm_matrix α) (G : herm_matrix_timestep α)
    (h : ¬ (tstp = G.tstp) ∨ (taskid = root ∧ ¬ (tstp ≤ Gred.nt ∧ G.ntau = Gred.ntau ∧
      G.size1 = Gred.size1 ∧ G.size2 = Gred.size2))) :
    Reduce_timestep_hm_ts sizeofT taskid tstp root Gred G = Proc.assert_failed (Gred, G) := by
  unfold Reduce_timestep_hm_ts
  by_cases hG : tstp = G.tstp
  · rcases h with h | h
    · exact (h hG).elim
    · rw [if_neg (not_not.mpr hG), if_pos h]
  · rw [if_pos hG]

theorem Reduce_timestep_hm_ts_eq_ok {α : Type} [Zero α] (sizeofT : Nat)
    (taskid tstp root : Int) (Gred : herm_matrix α) (G : herm_matrix_timestep α)
    (h : ¬ (¬ (tstp = G.tstp) ∨ (taskid = root ∧ ¬ (tstp ≤ Gred.nt ∧ G.ntau = Gred.ntau ∧
      G.size1 = Gred.size1 ∧ G.size2 = Gred.size2)))) :
    Reduce_timestep_hm_ts sizeofT taskid tstp root Gred G =
      (Reduce_timestep sizeofT taskid tstp root
        (if taskid = root then herm_matrix_timestep.default.resize tstp G.ntau G.size1
          else herm_matrix_timestep.default) G).andThen (Gred, G)
        (fun t => (if taskid = root then Gred.set_timestep tstp t.1 else Gred, G)) := by
  unfold Reduce_timestep_hm_ts
  rw [if_neg (fun e => h (Or.inl e)), if_neg (fun e => h (Or.inr e))]

theorem Reduce_timestep_ts_hm_eq_assert {α : Type} [Zero α] (sizeofT : Nat)
    (taskid tstp root : Int) (Gred : herm_matrix_timestep α) (G : herm_matrix α)
    (h : ¬ (tstp ≤ G.nt) ∨ (taskid = root ∧ ¬ (tstp = Gred.tstp ∧ G.ntau = Gred.ntau ∧
      G.size1 = Gred.size1 ∧ G.size2 = Gred.size2))) :
    Reduce_timestep_ts_hm sizeofT taskid tstp root Gred G = Proc.assert_failed (Gred, G) := by
  unfold Reduce_timestep_ts_hm
  by_cases hG : tstp ≤ G.nt
  · rcases h with h | h
    · exact (h hG).elim
    · rw [if_neg (not_not.mpr hG), if_pos h]
  · rw [if_pos hG]

theorem Reduce_timestep_ts_hm_eq_ok {α : Type} [Zero α] (sizeofT : Nat)
    (taskid tstp root : Int) (Gred : herm_matrix_timestep α) (G : herm_matrix α)
    (h : ¬ (¬ (tstp ≤ G.nt) ∨ (taskid = root ∧ ¬ (tstp = Gred.tstp ∧ G.ntau = Gred.ntau ∧
      G.size1 = Gred.size1 ∧ G.size2 = Gred.size2)))) :
    Reduce_timestep_ts_hm sizeofT taskid tstp root Gred G =
      (Reduce_timestep sizeofT taskid tstp root Gred
        (G.get_timestep tstp (herm_matrix_timestep.default.resize tstp G.ntau G.size1))).andThen
        (Gred, G) (fun t => (t.1, G)) := by
  unfold Reduce_timestep_ts_hm
  rw [if_neg (fun e => h (Or.inl e)), if_neg (fun e => h (Or.inr e))]

theorem Reduce_timestep_hm_hm_eq_assert {α : Type} [Zero α] (sizeofT : Nat)
    (taskid tstp root : Int) (Gred G : herm_matrix α)
    (h : ¬ (tstp ≤ G.nt) ∨ (taskid = root ∧ ¬ (tstp ≤ Gred.nt ∧ G.ntau = Gred.ntau ∧
      G.size1 = Gred.size1 ∧ G.size2 = Gred.size2))) :
    Reduce_timestep_hm_hm sizeofT taskid tstp root Gred G = Proc.assert_failed (Gred, G) := by
  unfold Reduce_timestep_hm_hm
  by_cases hG : tstp ≤ G.nt
  · rcases h with h | h
    · exact (h hG).elim
    · rw [if_neg (not_not.mpr hG), if_pos h]
  · rw [if_pos hG]

theorem Reduce_timestep_hm_hm_eq_ok {α : Type} [Zero α] (sizeofT : Nat)
    (taskid tstp root : Int) (Gred G : herm_matrix α)
    (h : ¬ (¬ (tstp ≤ G.nt) ∨ (taskid = root ∧ ¬ (tstp ≤ Gred.nt ∧ G.ntau = Gred.ntau ∧
      G.size1 = Gred.size1 ∧ G.size2 = Gred.size2)))) :
    Reduce_timestep_hm_hm sizeofT taskid tstp root Gred G =
      (Reduce_timestep sizeofT taskid tstp root
        (if taskid = root then herm_matrix_timestep.default.resize tstp G.ntau G.size1
          else herm_matrix_timestep.default)
        (herm_matrix_timestep.default.resize tstp G.ntau G.size1)).andThen (Gred, G)
        (fun t => (if taskid = root then Gred.set_timestep tstp t.1 else Gred, G)) := by
  unfold Reduce_timestep_hm_hm
  rw [if_neg (fun e => h (Or.inl e)), if_neg (fun e => h (Or.inr e))]

/-- C5: for a scalar type whose width is not that of `double`, a call of any of the four
forms in which no assertion fails ends in `exit(0)`: the collective is not called and the
caller's destination (and source) are as they were before the call, on every rank. -/
theorem unsupported_width_exits {α : Type} [Zero α] (sizeofT : Nat)
    (hw : sizeofT ≠ sizeofDouble) (taskid tstp root : Int) :
    (∀ Gred G : herm_matrix_timestep α,
        (Reduce_timestep sizeofT taskid tstp root Gred G).outcome ≠ Outcome.assert_failed →
        Reduce_timestep sizeofT taskid tstp root Gred G = Proc.exited (Gred, G))
      ∧ (∀ (Gred : herm_matrix α) (G : herm_matrix_timestep α),
        (Reduce_timestep_hm_ts sizeofT taskid tstp root Gred G).outcome
            ≠ Outcome.assert_failed →
        Reduce_timestep_hm_ts sizeofT taskid tstp root Gred G = Proc.exited (Gred, G))
      ∧ (∀ (Gred : herm_matrix_timestep α) (G : herm_matrix α),
        (Reduce_timestep_ts_hm sizeofT taskid tstp root Gred G).outcome
            ≠ Outcome.assert_failed →
        Reduce_timestep_ts_hm sizeofT taskid tstp root Gred G = Proc.exited (Gred, G))
      ∧ (∀ Gred G : herm_matrix α,
        (Reduce_timestep_hm_hm sizeofT taskid tstp root Gred G).outcome
            ≠ Outcome.assert_failed →
        Reduce_timestep_hm_hm sizeofT taskid tstp root Gred G = Proc.exited (Gred, G)) := by
  refine ⟨?_, ?_, ?_, ?_⟩
  · intro Gred G h
    rcases Reduce_timestep_width sizeofT hw taskid tstp root Gred G with e | e
    · rw [e] at h
      exact (h rfl).elim
    · exact e
  · intro Gred G h
    by_cases hbad : ¬ (tstp = G.tstp) ∨ (taskid = root ∧ ¬ (tstp ≤ Gred.nt ∧
        G.ntau = Gred.ntau ∧ G.size1 = Gred.size1 ∧ G.size2 = Gred.size2))
    · rw [Reduce_timestep_hm_ts_eq_assert sizeofT taskid tstp root Gred G hbad] at h
      exact (h rfl).elim
    · rw [Reduce_timestep_hm_ts_eq_ok sizeofT taskid tstp root Gred G hbad] at h ⊢
      exact andThen_width _ _ _ _ _ (Reduce_timestep_width sizeofT hw taskid tstp root _ G) h
  · intro Gred G h
    by_cases hbad : ¬ (tstp ≤ G.nt) ∨ (taskid = root ∧ ¬ (tstp = Gred.tstp ∧
        G.ntau = Gred.ntau ∧ G.size1 = Gred.size1 ∧ G.size2 = Gred.size2))
    · rw [Reduce_timestep_ts_hm_eq_assert sizeofT taskid tstp root Gred G hbad] at h
      exact (h rfl).elim
    · rw [Reduce_timestep_ts_hm_eq_ok sizeofT taskid tstp root Gred G hbad] at h ⊢
      exact andThen_width _ _ _ _ _ (Reduce_timestep_width sizeofT hw taskid tstp root Gred _) h
  · intro Gred G h
    by_cases hbad : ¬ (tstp ≤ G.nt) ∨ (taskid = root ∧ ¬ (tstp ≤ Gred.nt ∧
        G.ntau = Gred.ntau ∧ G.size1 = Gred.size1 ∧ G.size2 = Gred.size2))
    · rw [Reduce_timestep_hm_hm_eq_assert sizeofT taskid tstp root Gred G hbad] at h
      exact (h rfl).elim
    · rw [Reduce_timestep_hm_hm_eq_ok sizeofT taskid tstp root Gred G hbad] at h ⊢
      exact andThen_width _ _ _ _ _ (Reduce_timestep_width sizeofT hw taskid tstp root _ _) h

/-- Witness of C5: a four-byte scalar on the root of a history-to-history call. -/
theorem unsupported_width_exits_witness :
    (4 : Nat) ≠ sizeofDouble ∧
      Reduce_timestep_hm_hm 4 0 0 0
          (herm_matrix.filled 0 0 1 1 (7 : Int)) (herm_matrix.filled 0 0 1 1 1)
        = Proc.exited (herm_matrix.filled 0 0 1 1 7, herm_matrix.filled 0 0 1 1 1) :=
  ⟨by decide, (unsupported_width_exits 4 (by decide) 0 0 0).2.2.2 _ _ (by decide)⟩

/-- Witness of C2: the count of the example scenario on a non-root rank. -/
theorem Reduce_timestep_count_witness :
    (Reduce_timestep sizeofDouble 1 2 0 (herm_matrix_timestep.default : herm_matrix_timestep Int)
        (herm_matrix_timestep.filled 2 3 2 2 1)).count? = some 80 :=
  (Reduce_timestep_count 1 2 0 (herm_matrix_timestep.default : herm_matrix_timestep Int)
    (herm_matrix_timestep.filled 2 3 2 2 1) (by decide) (by decide)).2.2 rfl rfl rfl rfl

/-- Witness of the amended C7 at the example scenario. -/
theorem len_symm_mono_in_range_witness :
    len 2 3 2 2 = 80 ∧ len 2 3 2 2 ≤ len 3 3 2 2 ∧ len 2 3 2 2 ≤ len 2 3 2 5 :=
  ⟨by decide,
    (len_symm_mono_in_range 2 3 2 2 (by decide) (by decide) (by decide) (by decide)).2.1 3
      (by decide) (by decide),
    (len_symm_mono_in_range 2 3 2 2 (by decide) (by decide) (by decide) (by decide)).2.2.2.2 5
      (by decide) (by decide)⟩

/-! ## Step bounds of the adapters -/

/-- C8 fails as stated: on rank 1 with root 0 the step `tstp = 1` exceeds `nt = 0` of the
destination history, and both the slice-to-history and the history-to-history form go on
to the collective instead of failing an assertion. -/
theorem step_bound_unchecked_off_root :
    (herm_matrix.filled 0 0 1 1 (0 : Int)).nt < 1
      ∧ (Reduce_timestep_hm_ts sizeofDouble 1 1 0 (herm_matrix.filled 0 0 1 1 (0 : Int))
          (herm_matrix_timestep.filled 1 0 1 1 1)).outcome = Outcome.Reduce
      ∧ (Reduce_timestep_hm_hm sizeofDouble 1 1 0 (herm_matrix.filled 0 0 1 1 (0 : Int))
          (herm_matrix.filled 1 0 1 1 1)).outcome = Outcome.Reduce := by
  decide

/-- C8, amended: in the history-to-slice and history-to-history forms a step `tstp` beyond
`nt` of the source history fails an assertion on every rank; in the slice-to-history and
history-to-history forms a step beyond `nt` of the destination history fails an assertion
on the root.  The process aborts before the collective, the caller's objects as they
were. -/
theorem adapters_step_bound {α : Type} [Zero α] (sizeofT : Nat) (taskid tstp root : Int) :
    (∀ (Gred : herm_matrix α) (G : herm_matrix_timestep α),
        taskid = root → Gred.nt < tstp →
        Reduce_timestep_hm_ts sizeofT taskid tstp root Gred G = Proc.assert_failed (Gred, G))
      ∧ (∀ (Gred : herm_matrix_timestep α) (G : herm_matrix α),
        G.nt < tstp →
        Reduce_timestep_ts_hm sizeofT taskid tstp root Gred G = Proc.assert_failed (Gred, G))
      ∧ (∀ Gred G : herm_matrix α,
        (G.nt < tstp ∨ (taskid = root ∧ Gred.nt < tstp)) →
        Reduce_timestep_hm_hm sizeofT taskid tstp root Gred G
          = Proc.assert_failed (Gred, G)) := by
  refine ⟨?_, ?_, ?_⟩
  · intro Gred G ht hnt
    exact Reduce_timestep_hm_ts_eq_assert sizeofT taskid tstp root Gred G
      (Or.inr ⟨ht, fun h => absurd h.1 (not_le.mpr hnt)⟩)
  · intro Gred G hnt
    exact Reduce_timestep_ts_hm_eq_assert sizeofT taskid tstp root Gred G
      (Or.inl (not_le.mpr hnt))
  · intro Gred G h
    rcases h with hnt | ⟨ht, hnt⟩
    · exact Reduce_timestep_hm_hm_eq_assert sizeofT taskid tstp root Gred G
        (Or.inl (not_le.mpr hnt))
    · exact Reduce_timestep_hm_hm_eq_assert sizeofT taskid tstp root Gred G
        (Or.inr ⟨ht, fun h => absurd h.1 (not_le.mpr hnt)⟩)

/-- Witness of the amended C8: the root of a slice-to-history call with `tstp = 1` beyond
`nt = 0` of the destination. -/
theorem adapters_step_bound_witness :
    Reduce_timestep_hm_ts sizeofDouble 0 1 0 (herm_matrix.filled 0 0 1 1 (0 : Int))
        (herm_matrix_timestep.filled 1 0 1 1 1)
      = Proc.assert_failed
        (herm_matrix.filled 0 0 1 1 0, herm_matrix_timestep.filled 1 0 1 1 1) :=
  (adapters_step_bound sizeofDouble 0 1 0).1 _ _ (by decide) (by decide)

/-! ## The temporary of the slice-to-history form -/

/-- C9 fails as stated: a `1 x 2` source slice and a `1 x 2` destination history pass the
root-side assertions of the slice-to-history form, the temporary made by
`resize(tstp, G.ntau(), G.size1())` is `1 x 1`, and the delegated call fails the assertion
`G.size2() == Gred.size2()`. -/
theorem Gtemp_not_matching_nonsquare :
    ((0 : Int) = (herm_matrix_timestep.filled 0 0 1 2 (1 : Int)).tstp
        ∧ (0 : Int) ≤ (herm_matrix.filled 0 0 1 2 (0 : Int)).nt
        ∧ (herm_matrix_timestep.filled 0 0 1 2 (1 : Int)).ntau
          = (herm_matrix.filled 0 0 1 2 (0 : Int)).ntau
        ∧ (herm_matrix_timestep.filled 0 0 1 2 (1 : Int)).size1
          = (herm_matrix.filled 0 0 1 2 (0 : Int)).size1
        ∧ (herm_matrix_timestep.filled 0 0 1 2 (1 : Int)).size2
          = (herm_matrix.filled 0 0 1 2 (0 : Int)).size2)
      ∧ ((herm_matrix_timestep.default : herm_matrix_timestep Int).resize 0 0 1).size2
        ≠ (herm_matrix_timestep.filled 0 0 1 2 (1 : Int)).size2
      ∧ (Reduce_timestep sizeofDouble 0 0 0
          ((herm_matrix_timestep.default : herm_matrix_timestep Int).resize 0 0 1)
          (herm_matrix_timestep.filled 0 0 1 2 1)).outcome = Outcome.assert_failed
      ∧ (Reduce_timestep_hm_ts sizeofDouble 0 0 0 (herm_matrix.filled 0 0 1 2 (0 : Int))
          (herm_matrix_timestep.filled 0 0 1 2 1)).outcome = Outcome.assert_failed := by
  decide

/-- C9, amended: for a square source slice (`size1 == size2`) with `G.tstp == tstp` that
passes the root-side assertions of the slice-to-history form, the temporary made on root by
`resize(tstp, G.ntau(), G.size1())` has the step, `ntau`, `size1` and `size2` of the source,
and neither the delegated slice-to-slice call nor the whole call fails an assertion. -/
theorem Gtemp_matches_square {α : Type} [Zero α] (sizeofT : Nat) (tstp root : Int)
    (Gred : herm_matrix α) (G : herm_matrix_timestep α)
    (hG : tstp = G.tstp) (hnt : tstp ≤ Gred.nt) (hntau : G.ntau = Gred.ntau)
    (h1 : G.size1 = Gred.size1) (h2 : G.size2 = Gred.size2) (hsq : G.size1 = G.size2) :
    (herm_matrix_timestep.default.resize tstp G.ntau G.size1 : herm_matrix_timestep α).tstp
        = G.tstp
      ∧ (herm_matrix_timestep.default.resize tstp G.ntau G.size1 : herm_matrix_timestep α).ntau
        = G.ntau
      ∧ (herm_matrix_timestep.default.resize tstp G.ntau G.size1 : herm_matrix_timestep α).size1
        = G.size1
      ∧ (herm_matrix_timestep.default.resize tstp G.ntau G.size1 : herm_matrix_timestep α).size2
        = G.size2
      ∧ (Reduce_timestep sizeofT root tstp root
          (herm_matrix_timestep.default.resize tstp G.ntau G.size1) G).outcome
        ≠ Outcome.assert_failed
      ∧ (Reduce_timestep_hm_ts sizeofT root tstp root Gred G).outcome
        ≠ Outcome.assert_failed := by
  have hcall : (Reduce_timestep sizeofT root tstp root
      (herm_matrix_timestep.default.resize tstp G.ntau G.size1) G).outcome
        ≠ Outcome.assert_failed :=
    Reduce_timestep_outcome_ok sizeofT root tstp root _ G hG
      (fun _ => ⟨rfl, rfl, rfl, hsq.symm⟩)
  refine ⟨hG, rfl, rfl, hsq, hcall, ?_⟩
  have hok : ¬ (¬ (tstp = G.tstp) ∨ (root = root ∧ ¬ (tstp ≤ Gred.nt ∧ G.ntau = Gred.ntau ∧
      G.size1 = Gred.size1 ∧ G.size2 = Gred.size2))) := by
    rintro (h | ⟨_, h⟩)
    · exact h hG
    · exact h ⟨hnt, hntau, h1, h2⟩
  rw [Reduce_timestep_hm_ts_eq_ok sizeofT root tstp root Gred G hok, if_pos rfl]
  intro h
  apply hcall
  revert h
  cases Reduce_timestep sizeofT root tstp root
      (herm_matrix_timestep.default.resize tstp G.ntau G.size1) G <;> intro h
  · rfl
  · cases h
  · cases h

/-- Witness of the amended C9: a `2 x 2` source slice of step 0 on root 0. -/
theorem Gtemp_matches_square_witness :
    (Reduce_timestep_hm_ts sizeofDouble 0 0 0 (herm_matrix.filled 0 0 2 2 (0 : Int))
        (herm_matrix_timestep.filled 0 0 2 2 1)).outcome ≠ Outcome.assert_failed :=
  (Gtemp_matches_square sizeofDouble 0 0 (herm_matrix.filled 0 0 2 2 (0 : Int))
    (herm_matrix_timestep.filled 0 0 2 2 1)
    (by decide) (by decide) (by decide) (by decide) (by decide) (by decide)).2.2.2.2.2

/-! ## Runs of a process group -/

theorem collect_reached {α σ : Type} (p : Nat → Proc α σ) :
    ∀ (l : List Nat) (calls : List (ReduceCall α)), collect (l.map p) = some calls →
      ∀ r ∈ l, (p r).outcome = Outcome.Reduce := by
  intro l
  induction l with
  | nil =>
    intro calls _ r hr
    cases hr
  | cons a l ih =>
    intro calls h r hr
    rw [List.map_cons] at h
    unfold collect at h
    cases hp : p a with
    | assert_failed s =>
      rw [hp] at h
      simp [Proc.call?] at h
    | exited s =>
      rw [hp] at h
      simp [Proc.call?] at h
    | Reduce call k =>
      cases hc : collect (l.map p) with
      | none =>
        rw [hp, hc] at h
        simp [Proc.call?] at h
      | some cs =>
        rcases List.mem_cons.mp hr with e | e
        · rw [e, hp]
          rfl
        · exact ih cs hc r e

theorem run_finals {α σ : Type} [Add α] [Zero α] (N root : Nat) (p : Nat → Proc α σ)
    (finals : List σ) (h : run N root p = some finals) :
    (∃ buf, finals = (List.range N).map (fun r => (p r).finish (decide (r = root)) buf))
      ∧ ∀ r < N, (p r).outcome = Outcome.Reduce := by
  unfold run at h
  cases hc : collect ((List.range N).map p) with
  | none =>
    rw [hc] at h
    cases h
  | some calls =>
    rw [hc] at h
    dsimp only at h
    cases hm : MPI_Reduce_SUM root calls with
    | none =>
      rw [hm] at h
      cases h
    | some buf =>
      rw [hm] at h
      dsimp only at h
      refine ⟨⟨buf, (Option.some.inj h).symm⟩, ?_⟩
      intro r hr
      exact collect_reached p _ calls hc r (List.mem_range.mpr hr)

theorem run_frame {α D S : Type} [Add α] [Zero α] (N root : Nat) (p : Nat → Proc α (D × S))
    (Gred : Nat → D) (G : Nat → S)
    (hp : ∀ r buf, r ≠ root → (p r).finish false buf = (Gred r, G r))
    (hs : ∀ r b buf, ((p r).finish b buf).2 = G r)
    (finals : List (D × S)) (h : run N root p = some finals) :
    finals.length = N ∧
      ∀ r d s, finals[r]? = some (d, s) → s = G r ∧ (r ≠ root → d = Gred r) := by
  obtain ⟨⟨buf, hf⟩, _⟩ := run_finals N root p finals h
  subst hf
  refine ⟨by simp, ?_⟩
  intro r d s hget
  rw [List.getElem?_map] at hget
  by_cases hr : r < N
  · rw [List.getElem?_range hr] at hget
    have hval : (p r).finish (decide (r = root)) buf = (d, s) := Option.some.inj hget
    refine ⟨?_, ?_⟩
    · have := hs r (decide (r = root)) buf
      rw [hval] at this
      exact this
    · intro hne
      have hdec : decide (r = root) = false := decide_eq_false hne
      rw [hdec, hp r buf hne] at hval
      exact (congrArg Prod.fst hval).symm
  · rw [List.getElem?_eq_none (by simpa using Nat.le_of_not_lt hr)] at hget
    cases hget

theorem finish_andThen {α σ τ : Type} (p : Proc α σ) (s : τ) (f : σ → τ) (b : Bool)
    (buf : List α) :
    (p.andThen s f).finish b buf = s ∨ (p.andThen s f).finish b buf = f (p.finish b buf) := by
  cases p with
  | assert_failed a => exact Or.inl rfl
  | exited a => exact Or.inl rfl
  | Reduce call k => exact Or.inr rfl

theorem Reduce_timestep_finish {α : Type} (sizeofT : Nat) (taskid tstp root : Int)
    (Gred G : herm_matrix_timestep α) (buf : List α) :
    (Reduce_timestep sizeofT taskid tstp root Gred G).finish false buf = (Gred, G)
      ∧ ∀ b, ((Reduce_timestep sizeofT taskid tstp root Gred G).finish b buf).2 = G := by
  by_cases hbad : ¬ (tstp = G.tstp) ∨ (taskid = root ∧ ¬ (tstp = Gred.tstp ∧
      G.ntau = Gred.ntau ∧ G.size1 = Gred.size1 ∧ G.size2 = Gred.size2))
  · rw [Reduce_timestep_eq_assert sizeofT taskid tstp root Gred G hbad]
    exact ⟨rfl, fun _ => rfl⟩
  · have hG : tstp = G.tstp := by
      by_contra h
      exact hbad (Or.inl h)
    have hroot : taskid = root → (tstp = Gred.tstp ∧ G.ntau = Gred.ntau ∧
        G.size1 = Gred.size1 ∧ G.size2 = Gred.size2) := by
      intro ht
      by_contra h
      exact hbad (Or.inr ⟨ht, h⟩)
    rw [Reduce_timestep_eq_ok sizeofT taskid tstp root Gred G hG hroot]
    by_cases hw : sizeofT = sizeofDouble
    · rw [if_pos hw]
      exact ⟨rfl, fun _ => rfl⟩
    · rw [if_neg hw]
      exact ⟨rfl, fun _ => rfl⟩

theorem Reduce_timestep_hm_ts_finish {α : Type} [Zero α] (sizeofT : Nat)
    (taskid tstp root : Int) (Gred : herm_matrix α) (G : herm_matrix_timestep α)
    (buf : List α) :
    (∀ b, taskid ≠ root →
        (Reduce_timestep_hm_ts sizeofT taskid tstp root Gred G).finish b buf = (Gred, G))
      ∧ ∀ b, ((Reduce_timestep_hm_ts sizeofT taskid tstp root Gred G).finish b buf).2 = G := by
  by_cases hbad : ¬ (tstp = G.tstp) ∨ (taskid = root ∧ ¬ (tstp ≤ Gred.nt ∧
      G.ntau = Gred.ntau ∧ G.size1 = Gred.size1 ∧ G.size2 = Gred.size2))
  · rw [Reduce_timestep_hm_ts_eq_assert sizeofT taskid tstp root Gred G hbad]
    exact ⟨fun _ _ => rfl, fun _ => rfl⟩
  · rw [Reduce_timestep_hm_ts_eq_ok sizeofT taskid tstp root Gred G hbad]
    refine ⟨fun b hne => ?_, fun b => ?_⟩
    · rcases finish_andThen (Reduce_timestep sizeofT taskid tstp root
          (if taskid = root then herm_matrix_timestep.default.resize tstp G.ntau G.size1
            else herm_matrix_timestep.default) G) (Gred, G)
          (fun t => (if taskid = root then Gred.set_timestep tstp t.1 else Gred, G))
          b buf with e | e
      · exact e
      · rw [e]
        simp only [if_neg hne]
    · rcases finish_andThen (Reduce_timestep sizeofT taskid tstp root
          (if taskid = root then herm_matrix_timestep.default.resize tstp G.ntau G.size1
            else herm_matrix_timestep.default) G) (Gred, G)
          (fun t => (if taskid = root then Gred.set_timestep tstp t.1 else Gred, G))
          b buf with e | e
      · rw [e]
      · rw [e]

theorem Reduce_timestep_ts_hm_finish {α : Type} [Zero α] (sizeofT : Nat)
    (taskid tstp root : Int) (Gred : herm_matrix_timestep α) (G : herm_matrix α)
    (buf : List α) :
    (Reduce_timestep_ts_hm sizeofT taskid tstp root Gred G).finish false buf = (Gred, G)
      ∧ ∀ b, ((Reduce_timestep_ts_hm sizeofT taskid tstp root Gred G).finish b buf).2 = G := by
  by_cases hbad : ¬ (tstp ≤ G.nt) ∨ (taskid = root ∧ ¬ (tstp = Gred.tstp ∧
      G.ntau = Gred.ntau ∧ G.size1 = Gred.size1 ∧ G.size2 = Gred.size2))
  · rw [Reduce_timestep_ts_hm_eq_assert sizeofT taskid tstp root Gred G hbad]
    exact ⟨rfl, fun _ => rfl⟩
  · rw [Reduce_timestep_ts_hm_eq_ok sizeofT taskid tstp root Gred G hbad]
    refine ⟨?_, fun b => ?_⟩
    · rcases finish_andThen (Reduce_timestep sizeofT taskid tstp root Gred
          (G.get_timestep tstp (herm_matrix_timestep.default.resize tstp G.ntau G.size1)))
          (Gred, G) (fun t => (t.1, G)) false buf with e | e
      · exact e
      · rw [e, (Reduce_timestep_finish sizeofT taskid tstp root Gred _ buf).1]
    · rcases finish_andThen (Reduce_timestep sizeofT taskid tstp root Gred
          (G.get_timestep tstp (herm_matrix_timestep.default.resize tstp G.ntau G.size1)))
          (Gred, G) (fun t => (t.1, G)) b buf with e | e
      · rw [e]
      · rw [e]

theorem Reduce_timestep_hm_hm_finish {α : Type} [Zero α] (sizeofT : Nat)
    (taskid tstp root : Int) (Gred G : herm_matrix α) (buf : List α) :
    (∀ b, taskid ≠ root →
        (Reduce_timestep_hm_hm sizeofT taskid tstp root Gred G).finish b buf = (Gred, G))
      ∧ ∀ b, ((Reduce_timestep_hm_hm sizeofT taskid tstp root Gred G).finish b buf).2 = G := by
  by_cases hbad : ¬ (tstp ≤ G.nt) ∨ (taskid = root ∧ ¬ (tstp ≤ Gred.nt ∧
      G.ntau = Gred.ntau ∧ G.size1 = Gred.size1 ∧ G.size2 = Gred.size2))
  · rw [Reduce_timestep_hm_hm_eq_assert sizeofT taskid tstp root Gred G hbad]
    exact ⟨fun _ _ => rfl, fun _ => rfl⟩
  · rw [Reduce_timestep_hm_hm_eq_ok sizeofT taskid tstp root Gred G hbad]
    refine ⟨fun b hne => ?_, fun b => ?_⟩
    · rcases finish_andThen (Reduce_timestep sizeofT taskid tstp root
          (if taskid = root then herm_matrix_timestep.default.resize tstp G.ntau G.size1
            else herm_matrix_timestep.default)
          (herm_matrix_timestep.default.resize tstp G.ntau G.size1)) (Gred, G)
          (fun t => (if taskid = root then Gred.set_timestep tstp t.1 else Gred, G))
          b buf with e | e
      · exact e
      · rw [e]
        simp only [if_neg hne]
    · rcases finish_andThen (Reduce_timestep sizeofT taskid tstp root
          (if taskid = root then herm_matrix_timestep.default.resize tstp G.ntau G.size1
            else herm_matrix_timestep.default)
          (herm_matrix_timestep.default.resize tstp G.ntau G.size1)) (Gred, G)
          (fun t => (if taskid = root then Gred.set_timestep tstp t.1 else Gred, G))
          b buf with e | e
      · rw [e]
      · rw [e]

/-- C6: in a run of any of the four forms that completes, the caller's source object is
unchanged on every rank and the caller's destination object is unchanged on every rank
other than root; only the destination of the root may differ after the call. -/
theorem frame_property {α : Type} [Add α] [Zero α] (sizeofT N root : Nat) (tstp : Int) :
    (∀ (Gred G : Nat → herm_matrix_timestep α)
        (finals : List (herm_matrix_timestep α × herm_matrix_timestep α)),
        run N root (fun r : Nat => Reduce_timestep sizeofT (r : Int) tstp (root : Int) (Gred r) (G r))
          = some finals →
        finals.length = N ∧
          ∀ r d s, finals[r]? = some (d, s) → s = G r ∧ (r ≠ root → d = Gred r))
      ∧ (∀ (Gred : Nat → herm_matrix α) (G : Nat → herm_matrix_timestep α)
        (finals : List (herm_matrix α × herm_matrix_timestep α)),
        run N root
            (fun r : Nat => Reduce_timestep_hm_ts sizeofT (r : Int) tstp (root : Int) (Gred r) (G r))
          = some finals →
        finals.length = N ∧
          ∀ r d s, finals[r]? = some (d, s) → s = G r ∧ (r ≠ root → d = Gred r))
      ∧ (∀ (Gred : Nat → herm_matrix_timestep α) (G : Nat → herm_matrix α)
        (finals : List (herm_matrix_timestep α × herm_matrix α)),
        run N root
            (fun r : Nat => Reduce_timestep_ts_hm sizeofT (r : Int) tstp (root : Int) (Gred r) (G r))
          = some finals →
        finals.length = N ∧
          ∀ r d s, finals[r]? = some (d, s) → s = G r ∧ (r ≠ root → d = Gred r))
      ∧ (∀ (Gred G : Nat → herm_matrix α) (finals : List (herm_matrix α × herm_matrix α)),
        run N root
            (fun r : Nat => Reduce_timestep_hm_hm sizeofT (r : Int) tstp (root : Int) (Gred r) (G r))
          = some finals →
        finals.length = N ∧
          ∀ r d s, finals[r]? = some (d, s) → s = G r ∧ (r ≠ root → d = Gred r)) := by
  refine ⟨?_, ?_, ?_, ?_⟩
  · intro Gred G finals h
    exact run_frame N root _ Gred G
      (fun r buf _ => (Reduce_timestep_finish sizeofT r tstp root (Gred r) (G r) buf).1)
      (fun r b buf => (Reduce_timestep_finish sizeofT r tstp root (Gred r) (G r) buf).2 b)
      finals h
  · intro Gred G finals h
    exact run_frame N root _ Gred G
      (fun r buf hne => (Reduce_timestep_hm_ts_finish sizeofT r tstp root (Gred r) (G r) buf).1
        false (fun e => hne (Nat.cast_injective e)))
      (fun r b buf => (Reduce_timestep_hm_ts_finish sizeofT r tstp root (Gred r) (G r) buf).2 b)
      finals h
  · intro Gred G finals h
    exact run_frame N root _ Gred G
      (fun r buf _ => (Reduce_timestep_ts_hm_finish sizeofT r tstp root (Gred r) (G r) buf).1)
      (fun r b buf => (Reduce_timestep_ts_hm_finish sizeofT r tstp root (Gred r) (G r) buf).2 b)
      finals h
  · intro Gred G finals h
    exact run_frame N root _ Gred G
      (fun r buf hne => (Reduce_timestep_hm_hm_finish sizeofT r tstp root (Gred r) (G r) buf).1
        false (fun e => hne (Nat.cast_injective e)))
      (fun r b buf => (Reduce_timestep_hm_hm_finish sizeofT r tstp root (Gred r) (G r) buf).2 b)
      finals h

/-! ## The result on root -/

theorem collect_map_calls {α σ : Type} (p : Nat → Proc α σ) (c : Nat → ReduceCall α) :
    ∀ l : List Nat, (∀ r ∈ l, (p r).call? = some (c r)) →
      collect (l.map p) = some (l.map c) := by
  intro l
  induction l with
  | nil =>
    intro _
    rfl
  | cons a l ih =>
    intro h
    rw [List.map_cons, List.map_cons]
    unfold collect
    rw [h a (List.mem_cons_self a l), ih (fun r hr => h r (List.mem_cons_of_mem a hr))]

theorem collect_congr {α σ τ : Type} (p : Nat → Proc α σ) (q : Nat → Proc α τ) :
    ∀ l : List Nat, (∀ r ∈ l, (p r).call? = (q r).call?) →
      collect (l.map p) = collect (l.map q) := by
  intro l
  induction l with
  | nil =>
    intro _
    rfl
  | cons a l ih =>
    intro h
    rw [List.map_cons, List.map_cons]
    unfold collect
    rw [h a (List.mem_cons_self a l), ih (fun r hr => h r (List.mem_cons_of_mem a hr))]

theorem sum_map_off_root {α : Type} [AddCommMonoid α] (root : Nat) (a : α) (g : Nat → α) :
    ∀ l : List Nat, root ∉ l →
      (l.map (fun r => if r = root then a else g r)).sum
        = ((l.filter (fun r => decide (r ≠ root))).map g).sum := by
  intro l
  induction l with
  | nil =>
    intro _
    rfl
  | cons x l ih =>
    intro h
    have hx : x ≠ root := fun e => h (e ▸ List.mem_cons_self x l)
    have hl : root ∉ l := fun e => h (List.mem_cons_of_mem x e)
    rw [List.map_cons, List.sum_cons, if_neg hx, List.filter_cons_of_pos (by simpa using hx),
      List.map_cons, List.sum_cons, ih hl]

theorem sum_map_split {α : Type} [AddCommMonoid α] (root : Nat) (a : α) (g : Nat → α) :
    ∀ l : List Nat, l.Nodup → root ∈ l →
      (l.map (fun r => if r = root then a else g r)).sum
        = a + ((l.filter (fun r => decide (r ≠ root))).map g).sum := by
  intro l
  induction l with
  | nil =>
    intro _ h
    cases h
  | cons x l ih =>
    intro hnd hmem
    have hxl : x ∉ l := (List.nodup_cons.mp hnd).1
    have hl : l.Nodup := (List.nodup_cons.mp hnd).2
    by_cases hx : x = root
    · rw [List.map_cons, List.sum_cons, if_pos hx,
        List.filter_cons_of_neg (by simpa using hx),
        sum_map_off_root root a g l (hx ▸ hxl)]
    · have hr : root ∈ l := by
        rcases List.mem_cons.mp hmem with e | e
        · exact (hx e.symm).elim
        · exact e
      rw [List.map_cons, List.sum_cons, if_neg hx, List.filter_cons_of_pos (by simpa using hx),
        List.map_cons, List.sum_cons, ih hl hr, add_left_comm]

theorem MPI_Reduce_SUM_eq {α : Type} [Add α] [Zero α] (root : Nat)
    (calls : List (ReduceCall α)) (rc : ReduceCall α) (hget : calls[root]? = some rc)
    (hpos : 0 ≤ rc.count)
    (hall : ∀ c ∈ calls, c.count = rc.count ∧ c.root = (root : Int) ∧
      rc.count.toNat ≤ (contribution c).length) :
    MPI_Reduce_SUM root calls =
      some ((List.range rc.count.toNat).map
          (fun i => (calls.map (fun c => (contribution c).getD i 0)).sum)
        ++ rc.recvbuf.drop rc.count.toNat) := by
  unfold MPI_Reduce_SUM
  rw [hget]
  dsimp only
  rw [if_pos ⟨hpos, List.all_eq_true.mpr (fun c hc => decide_eq_true (hall c hc))⟩]

theorem root_result_run {α D S : Type} [Add α] [Zero α] (N root : Nat) (hroot : root < N)
    (p : Nat → Proc α (D × S)) (calls : List (ReduceCall α)) (buf : List α)
    (hc : collect ((List.range N).map p) = some calls)
    (hm : MPI_Reduce_SUM root calls = some buf) :
    root_result root (run N root p) = some ((p root).finish true buf).1 := by
  unfold run
  rw [hc]
  dsimp only
  rw [hm]
  dsimp only
  unfold root_result
  dsimp only
  rw [List.getElem?_map, List.getElem?_range hroot]
  simp

theorem root_result_congr {α D S S' : Type} [Add α] [Zero α] (N root : Nat)
    (p : Nat → Proc α (D × S)) (q : Nat → Proc α (D × S'))
    (hcall : ∀ r, (p r).call? = (q r).call?)
    (hfin : ∀ b buf, ((p root).finish b buf).1 = ((q root).finish b buf).1) :
    root_result root (run N root p) = root_result root (run N root q) := by
  unfold run
  rw [collect_congr p q (List.range N) (fun r _ => hcall r)]
  cases collect ((List.range N).map q) with
  | none => rfl
  | some calls =>
    dsimp only
    cases MPI_Reduce_SUM root calls with
    | none => rfl
    | some buf =>
      dsimp only
      unfold root_result
      dsimp only
      rw [List.getElem?_map, List.getElem?_map]
      by_cases hroot : root < N
      · rw [List.getElem?_range hroot]
        simp only [Option.map_some']
        rw [hfin]
      · rw [List.getElem?_eq_none (by simpa using Nat.le_of_not_lt hroot)]
        rfl

theorem Reduce_timestep_root_indep {α : Type} (sizeofT : Nat) (tstp root : Int)
    (Gred G : herm_matrix_timestep α) (d : List α) :
    (Reduce_timestep sizeofT root tstp root Gred { G with data_ := d }).call?
        = (Reduce_timestep sizeofT root tstp root Gred G).call?
      ∧ ∀ b buf,
        ((Reduce_timestep sizeofT root tstp root Gred { G with data_ := d }).finish b buf).1
          = ((Reduce_timestep sizeofT root tstp root Gred G).finish b buf).1 := by
  by_cases hbad : ¬ (tstp = G.tstp) ∨ (root = root ∧ ¬ (tstp = Gred.tstp ∧
      G.ntau = Gred.ntau ∧ G.size1 = Gred.size1 ∧ G.size2 = Gred.size2))
  · rw [Reduce_timestep_eq_assert sizeofT root tstp root Gred G hbad,
      Reduce_timestep_eq_assert sizeofT root tstp root Gred { G with data_ := d } hbad]
    exact ⟨rfl, fun _ _ => rfl⟩
  · have hG : tstp = G.tstp := by
      by_contra h
      exact hbad (Or.inl h)
    have hroot : root = root → (tstp = Gred.tstp ∧ G.ntau = Gred.ntau ∧
        G.size1 = Gred.size1 ∧ G.size2 = Gred.size2) := by
      intro ht
      by_contra h
      exact hbad (Or.inr ⟨ht, h⟩)
    rw [Reduce_timestep_eq_ok sizeofT root tstp root Gred G hG hroot,
      Reduce_timestep_eq_ok sizeofT root tstp root Gred { G with data_ := d } hG hroot]
    by_cases hw : sizeofT = sizeofDouble
    · rw [if_pos hw, if_pos hw, if_pos rfl, if_pos rfl]
      exact ⟨rfl, fun _ _ => rfl⟩
    · rw [if_neg hw, if_neg hw]
      exact ⟨rfl, fun _ _ => rfl⟩

/-- C10: in a run of the slice-to-slice `Reduce_timestep` whose assertions hold on every
rank, with one element count `len` on all ranks and buffers of at least `len` components,
the run completes and component `i < len` of the root's destination buffer is the value it
held before the call plus the sum of component `i` of the source buffers of the ranks other
than root (the components from `len` on are kept).  The root's result is the same
whatever the root's own source buffer holds. -/
theorem Reduce_timestep_root_result {α : Type} [AddCommMonoid α] (N root : Nat) (tstp : Int)
    (Gred G : Nat → herm_matrix_timestep α)
    (hroot : root < N)
    (hG : ∀ r < N, tstp = (G r).tstp)
    (hdest : tstp = (Gred root).tstp ∧ (G root).ntau = (Gred root).ntau ∧
      (G root).size1 = (Gred root).size1 ∧ (G root).size2 = (Gred root).size2)
    (hlen : ∀ r < N, len tstp (G r).ntau (G r).size1 (G r).size2
      = len tstp (G root).ntau (G root).size1 (G root).size2)
    (hpos : 0 ≤ len tstp (G root).ntau (G root).size1 (G root).size2)
    (hsrc : ∀ r < N, r ≠ root →
      (len tstp (G root).ntau (G root).size1 (G root).size2).toNat ≤ (G r).data_.length)
    (hdst : (len tstp (G root).ntau (G root).size1 (G root).size2).toNat
      ≤ (Gred root).data_.length) :
    root_result root (run N root
        (fun r : Nat => Reduce_timestep sizeofDouble (r : Int) tstp (root : Int) (Gred r) (G r)))
      = some { Gred root with
          data_ :=
            (List.range (len tstp (G root).ntau (G root).size1 (G root).size2).toNat).map
              (fun i => (Gred root).data_.getD i 0
                + (((List.range N).filter (fun r => decide (r ≠ root))).map
                    (fun r => (G r).data_.getD i 0)).sum)
            ++ (Gred root).data_.drop
                (len tstp (G root).ntau (G root).size1 (G root).size2).toNat }
      ∧ ∀ d : List α,
        root_result root (run N root
          (fun r : Nat => Reduce_timestep sizeofDouble (r : Int) tstp (root : Int) (Gred r)
            (if r = root then { G root with data_ := d } else G r)))
        = root_result root (run N root
          (fun r : Nat => Reduce_timestep sizeofDouble (r : Int) tstp (root : Int) (Gred r) (G r))) := by
  constructor
  · -- the call of every rank
    have hcast : ∀ r : Nat, ((r : Int) = (root : Int)) ↔ r = root := fun r => Nat.cast_inj
    have hval : ∀ r < N,
        Reduce_timestep sizeofDouble (r : Int) tstp (root : Int) (Gred r) (G r) =
          Proc.Reduce
            { sendbuf := if (r : Int) = (root : Int) then none else some (G r).data_,
              recvbuf := (Gred r).data_,
              count := len tstp (G r).ntau (G r).size1 (G r).size2, root := (root : Int) }
            (fun buf => ({ Gred r with data_ := buf }, G r)) := by
      intro r hr
      rw [Reduce_timestep_eq_ok sizeofDouble (r : Int) tstp (root : Int) (Gred r) (G r)
        (hG r hr) (fun e => by rw [(hcast r).mp e]; exact hdest), if_pos rfl]
    have hc : collect ((List.range N).map
        (fun r : Nat => Reduce_timestep sizeofDouble (r : Int) tstp (root : Int) (Gred r) (G r)))
        = some ((List.range N).map (fun r : Nat =>
            ({ sendbuf := if (r : Int) = (root : Int) then none else some (G r).data_,
               recvbuf := (Gred r).data_,
               count := len tstp (G r).ntau (G r).size1 (G r).size2,
               root := (root : Int) } : ReduceCall α))) := by
      apply collect_map_calls
      intro r hr
      rw [hval r (List.mem_range.mp hr)]
      rfl
    have hget : ((List.range N).map (fun r : Nat =>
            ({ sendbuf := if (r : Int) = (root : Int) then none else some (G r).data_,
               recvbuf := (Gred r).data_,
               count := len tstp (G r).ntau (G r).size1 (G r).size2,
               root := (root : Int) } : ReduceCall α)))[root]?
        = some { sendbuf := none, recvbuf := (Gred root).data_,
                 count := len tstp (G root).ntau (G root).size1 (G root).size2,
                 root := (root : Int) } := by
      rw [List.getElem?_map, List.getElem?_range hroot]
      simp
    have hm := MPI_Reduce_SUM_eq root _ _ hget hpos (by
      intro c hcm
      obtain ⟨r, hr, rfl⟩ := List.mem_map.mp hcm
      have hrN : r < N := List.mem_range.mp hr
      refine ⟨hlen r hrN, rfl, ?_⟩
      by_cases e : r = root
      · subst e
        simpa [contribution] using hdst
      · have e' : ¬ ((r : Int) = (root : Int)) := fun h => e ((hcast r).mp h)
        simpa [contribution, e'] using hsrc r hrN e)
    rw [root_result_run N root hroot _ _ _ hc hm, hval root hroot]
    simp only [Proc.finish, if_true]
    congr 2
    congr 1
    apply List.map_congr_left
    intro i _
    rw [List.map_map]
    have hfun : ((fun c : ReduceCall α => (contribution c).getD i 0) ∘ fun r : Nat =>
        ({ sendbuf := if (r : Int) = (root : Int) then none else some (G r).data_,
           recvbuf := (Gred r).data_,
           count := len tstp (G r).ntau (G r).size1 (G r).size2,
           root := (root : Int) } : ReduceCall α))
        = fun r => if r = root then (Gred root).data_.getD i 0 else (G r).data_.getD i 0 := by
      funext r
      by_cases e : r = root
      · subst e
        simp [contribution]
      · have e' : ¬ ((r : Int) = (root : Int)) := fun h => e ((hcast r).mp h)
        simp [contribution, e, e']
    rw [hfun]
    exact sum_map_split root _ _ (List.range N) (List.nodup_range N) (List.mem_range.mpr hroot)
  · intro d
    apply root_result_congr
    · intro r
      by_cases e : r = root
      · subst e
        rw [if_pos rfl]
        exact (Reduce_timestep_root_indep sizeofDouble tstp (r : Int) (Gred r) (G r) d).1
      · rw [if_neg e]
    · intro b buf
      rw [if_pos rfl]
      exact (Reduce_timestep_root_indep sizeofDouble tstp (root : Int) (Gred root) (G root) d).2
        b buf

/-- Witness of C10: two ranks, root 0 holding 10 in every component of its destination,
rank 1 holding 2 in every component of its source. -/
theorem Reduce_timestep_root_result_witness :
    root_result 0 (run 2 0
        (fun r : Nat => Reduce_timestep sizeofDouble (r : Int) 0 ((0 : Nat) : Int)
          (herm_matrix_timestep.filled 0 0 1 1 (10 : Int))
          (herm_matrix_timestep.filled 0 0 1 1 ((r : Int) + 1))))
      = some (herm_matrix_timestep.filled 0 0 1 1 12) :=
  ((Reduce_timestep_root_result 2 0 0
      (fun _ => herm_matrix_timestep.filled 0 0 1 1 (10 : Int))
      (fun r => herm_matrix_timestep.filled 0 0 1 1 ((r : Int) + 1))
      (by decide) (fun _ _ => rfl) (by decide) (fun _ _ => rfl) (by decide)
      (fun r _ _ => by simp [herm_matrix_timestep.filled]) (by decide)).1).trans (by decide)

/-- Witness of C6: a completed slice-to-history run of two ranks; rank 1 keeps its source
and its destination. -/
theorem frame_property_witness :
    run 2 0
        (fun r : Nat => Reduce_timestep_hm_ts sizeofDouble (r : Int) 0 ((0 : Nat) : Int)
          (herm_matrix.filled 0 0 1 1 (0 : Int))
          (herm_matrix_timestep.filled 0 0 1 1 ((r : Int) + 1)))
        = some [(herm_matrix.filled 0 0 1 1 2, herm_matrix_timestep.filled 0 0 1 1 1),
            (herm_matrix.filled 0 0 1 1 0, herm_matrix_timestep.filled 0 0 1 1 2)]
      ∧ (herm_matrix_timestep.filled 0 0 1 1 (2 : Int)
          = herm_matrix_timestep.filled 0 0 1 1 (((1 : Nat) : Int) + 1)
        ∧ (1 ≠ 0 → herm_matrix.filled 0 0 1 1 (0 : Int) = herm_matrix.filled 0 0 1 1 0)) :=
  ⟨by decide,
    ((frame_property sizeofDouble 2 0 0).2.1
      (fun _ => herm_matrix.filled 0 0 1 1 (0 : Int))
      (fun r => herm_matrix_timestep.filled 0 0 1 1 ((r : Int) + 1))
      [(herm_matrix.filled 0 0 1 1 2, herm_matrix_timestep.filled 0 0 1 1 1),
        (herm_matrix.filled 0 0 1 1 0, herm_matrix_timestep.filled 0 0 1 1 2)]
      (by decide)).2 1 _ _ rfl⟩

/-! ## Where the code leaves the claims -/

/-- C1, the code at the failing input: two ranks, root 0, every source buffer filled with
the constant `c_r = r + 1` and a zero destination of the same dimensions on root.  The
root's destination ends filled with 2, the constant of rank 1 alone, not with
`c_0 + c_1 = 3`: with `MPI::IN_PLACE` the root contributes its destination buffer and its
own source buffer is never summed. -/
theorem root_source_not_summed :
    root_result 0 (run 2 0
        (fun r : Nat => Reduce_timestep sizeofDouble (r : Int) 0 ((0 : Nat) : Int)
          (herm_matrix_timestep.filled 0 0 1 1 (0 : Int))
          (herm_matrix_timestep.filled 0 0 1 1 ((r : Int) + 1))))
        = some (herm_matrix_timestep.filled 0 0 1 1 2)
      ∧ herm_matrix_timestep.filled 0 0 1 1 (2 : Int)
        ≠ herm_matrix_timestep.filled 0 0 1 1 (1 + 2) := by
  decide

/-- C4, the code at the failing input: two ranks, root 0, source histories filled with
`r + 1`, zero destination histories.  The history-to-history form leaves step 0 of the
root's destination zero, the manual procedure by slices puts there the step of rank 1. -/
theorem history_to_history_differs_from_slices :
    root_result 0 (run 2 0
        (fun r : Nat => Reduce_timestep_hm_hm sizeofDouble (r : Int) 0 ((0 : Nat) : Int)
          (herm_matrix.filled 0 0 1 1 (0 : Int)) (herm_matrix.filled 0 0 1 1 ((r : Int) + 1))))
        = some (herm_matrix.filled 0 0 1 1 0)
      ∧ root_result 0 (run 2 0
        (fun r : Nat => Reduce_timestep_by_slices sizeofDouble (r : Int) 0 ((0 : Nat) : Int)
          (herm_matrix.filled 0 0 1 1 (0 : Int)) (herm_matrix.filled 0 0 1 1 ((r : Int) + 1))))
        = some (herm_matrix.filled 0 0 1 1 2)
      ∧ herm_matrix.filled 0 0 1 1 (0 : Int) ≠ herm_matrix.filled 0 0 1 1 2 := by
  decide

end cntr
